import Mathlib

/-!
Verification of `src/deployment/decryptJSON.py` (function
`decrypt_json_with_password`): a password-based authenticated decryption
routine over a JSON envelope holding base64-encoded `salt`, `nonce`, `tag`
and `ciphertext` fields.

The cryptographic primitives (PBKDF2-HMAC-SHA-256 and AES-256-GCM) come
from an external vetted library that is not part of this repository's
sources; they are modelled abstractly by the `CryptoPrims` structure, whose
laws state only what the specification assumes of them (determinism,
output lengths, and that decryption inverts encryption).  The base64 codec
and the strict UTF-8 codec are embedded faithfully, since the claims about
the error taxonomy depend on exactly when they fail.
-/

namespace DecryptJSON

/-! ### Base64 (Python `base64.b64decode` / `base64.b64encode`) -/

/-- The standard base64 alphabet (RFC 4648). -/
def b64Alphabet : List Char :=
  ['A', 'B', 'C', 'D', 'E', 'F', 'G', 'H', 'I', 'J', 'K', 'L', 'M',
   'N', 'O', 'P', 'Q', 'R', 'S', 'T', 'U', 'V', 'W', 'X', 'Y', 'Z',
   'a', 'b', 'c', 'd', 'e', 'f', 'g', 'h', 'i', 'j', 'k', 'l', 'm',
   'n', 'o', 'p', 'q', 'r', 's', 't', 'u', 'v', 'w', 'x', 'y', 'z',
   '0', '1', '2', '3', '4', '5', '6', '7', '8', '9', '+', '/']

/-- Index of a character in a character list, or `none`. -/
def b64Index : List Char → Nat → Char → Option Nat
  | [], _, _ => none
  | a :: rest, i, c => if c = a then some i else b64Index rest (i + 1) c

/-- The 6-bit value of a base64 alphabet character, `none` for characters
outside the alphabet (which Python's non-strict decoder silently skips). -/
def b64Table (c : Char) : Option Nat := b64Index b64Alphabet 0 c

/-- The alphabet character encoding a 6-bit value. -/
def b64EncChar (v : Nat) : Char := b64Alphabet.getD v 'A'

/-- The core loop of CPython's `binascii.a2b_base64` in non-strict mode
(the mode used by `base64.b64decode` with `validate=False`, the default):
characters outside the alphabet are skipped; a padding character `=` seen
with at least two data characters in the current quad, once enough padding
has accumulated to complete the quad, ends decoding (the rest of the input
is ignored); at the end of input a partially filled quad is an error
(`binascii.Error`), modelled as `none`. -/
def a2bLoop : List Char → Nat → Nat → Nat → List Nat → Option (List Nat)
  | [], quadPos, _, _, acc => if quadPos = 0 then some acc else none
  | c :: rest, quadPos, leftchar, pads, acc =>
    if c = '=' then
      if 2 ≤ quadPos ∧ 4 ≤ quadPos + (pads + 1) then some acc
      else a2bLoop rest quadPos leftchar (pads + 1) acc
    else
      match b64Table c with
      | none => a2bLoop rest quadPos leftchar pads acc
      | some v =>
        match quadPos with
        | 0 => a2bLoop rest 1 v 0 acc
        | 1 => a2bLoop rest 2 (v % 16) 0 (acc ++ [leftchar * 4 + v / 16])
        | 2 => a2bLoop rest 3 (v % 4) 0 (acc ++ [leftchar * 16 + v / 4])
        | _ => a2bLoop rest 0 0 0 (acc ++ [leftchar * 64 + v])

/-- Python `base64.b64decode` applied to a `str`: the string is first
encoded as ASCII (a non-ASCII character raises, modelled as `none`), then
fed to `binascii.a2b_base64` in non-strict mode. -/
def b64decode (s : String) : Option (List Nat) :=
  if s.data.all (fun c => decide (c.toNat < 128)) then a2bLoop s.data 0 0 0 []
  else none

/-- Python `base64.b64encode`: standard base64 with `=` padding, grouping
the input bytes three at a time. -/
def b64encodeChars : List Nat → List Char
  | a :: b :: c :: rest =>
    b64EncChar (a / 4) :: b64EncChar (a % 4 * 16 + b / 16) ::
    b64EncChar (b % 16 * 4 + c / 64) :: b64EncChar (c % 64) :: b64encodeChars rest
  | [a, b] =>
    [b64EncChar (a / 4), b64EncChar (a % 4 * 16 + b / 16), b64EncChar (b % 16 * 4), '=']
  | [a] => [b64EncChar (a / 4), b64EncChar (a % 4 * 16), '=', '=']
  | [] => []

/-- Python `base64.b64encode` as a string. -/
def b64encode (bs : List Nat) : String := String.mk (b64encodeChars bs)

/-! ### UTF-8 (Python `str.encode` / `bytes.decode`, strict) -/

/-- UTF-8 encoding of a single Unicode scalar value (Python
`str.encode` with the default `utf-8` codec, per character). -/
def utf8EncodeChar (c : Char) : List Nat :=
  if c.toNat < 128 then [c.toNat]
  else if c.toNat < 2048 then [192 + c.toNat / 64, 128 + c.toNat % 64]
  else if c.toNat < 65536 then
    [224 + c.toNat / 4096, 128 + c.toNat / 64 % 64, 128 + c.toNat % 64]
  else
    [240 + c.toNat / 262144, 128 + c.toNat / 4096 % 64, 128 + c.toNat / 64 % 64,
     128 + c.toNat % 64]

/-- Python `str.encode('utf-8')`. -/
def utf8Encode (s : String) : List Nat := s.data.flatMap utf8EncodeChar

/-- The byte-at-a-time engine of Python's strict `bytes.decode('utf-8')`.
`need` is the number of continuation bytes still expected, `v` the scalar
value accumulated so far, and `lo` the smallest value the completed scalar
may take (rejecting overlong encodings).  Lead bytes `0x80`–`0xC1` (stray
continuation bytes and the always-overlong starts) and `0xF5`–`0xFF` are
invalid; a completed scalar must reach `lo`, must not be a surrogate, and
must not exceed `0x10FFFF`; input ending mid-sequence is invalid.  This
accepts exactly the byte sequences Python's strict decoder accepts. -/
def utf8Run : List Nat → Nat → Nat → Nat → Option (List Char)
  | [], need, _, _ => if need = 0 then some [] else none
  | b :: rest, 0, _, _ =>
    if b < 128 then (utf8Run rest 0 0 0).map (fun cs => Char.ofNat b :: cs)
    else if b < 194 then none
    else if b < 224 then utf8Run rest 1 (b - 192) 128
    else if b < 240 then utf8Run rest 2 (b - 224) 2048
    else if b < 245 then utf8Run rest 3 (b - 240) 65536
    else none
  | b :: rest, 1, v, lo =>
    if 128 ≤ b ∧ b < 192 then
      if lo ≤ v * 64 + (b - 128) ∧
          ¬(55296 ≤ v * 64 + (b - 128) ∧ v * 64 + (b - 128) < 57344) ∧
          v * 64 + (b - 128) < 1114112 then
        (utf8Run rest 0 0 0).map (fun cs => Char.ofNat (v * 64 + (b - 128)) :: cs)
      else none
    else none
  | b :: rest, n + 2, v, lo =>
    if 128 ≤ b ∧ b < 192 then utf8Run rest (n + 1) (v * 64 + (b - 128)) lo
    else none

/-- Python `bytes.decode('utf-8')` in strict mode, on byte lists. -/
def utf8DecodeList (bs : List Nat) : Option (List Char) := utf8Run bs 0 0 0

/-- Python `bytes.decode('utf-8')`, producing a string. -/
def utf8Decode (bs : List Nat) : Option String :=
  (utf8DecodeList bs).map (fun cs => String.mk cs)

/-! ### Data model -/

/-- A JSON value appearing in the parsed envelope object: a string, or
anything else (on which `base64.b64decode` raises `TypeError`). -/
inductive JVal where
  | str : String → JVal
  | nonstr : JVal
deriving DecidableEq

/-- The envelope source, as seen after the `open` / `json.load` calls of
the Python function: the file may be missing (`FileNotFoundError`), its
contents may fail to parse as JSON (`json.JSONDecodeError`), or it parses
to a JSON object given by its key/value pairs. -/
inductive Source where
  | missing : Source
  | unreadableJson : Source
  | object : List (String × JVal) → Source
deriving DecidableEq

/-- The four decoded byte buffers of the envelope. -/
structure Envelope where
  salt : List Nat
  nonce : List Nat
  tag : List Nat
  ciphertext : List Nat
deriving DecidableEq

/-- The distinct failure signals the Python function lets escape to its
caller, named after the spec's taxonomy: `FileNotFoundError` maps to
`sourceUnavailable`; JSON, missing-key and base64 failures map to
`malformedEnvelope`; `cryptography.exceptions.InvalidTag` maps to
`authenticationFailure`; and `UnicodeDecodeError`, raised by the final
`decrypted_data.decode('utf-8')`, is a fourth distinct signal. -/
inductive DecryptError where
  | sourceUnavailable : DecryptError
  | malformedEnvelope : DecryptError
  | authenticationFailure : DecryptError
  | unicodeDecodeError : DecryptError
deriving DecidableEq

/-- Lookup of a key in the parsed JSON object; `json.load` builds a
`dict`, in which a later duplicate key overwrites an earlier one, so the
last binding wins. -/
def lookupField : List (String × JVal) → String → Option JVal
  | [], _ => none
  | (k, v) :: rest, key =>
    match lookupField rest key with
    | some v' => some v'
    | none => if key = k then some v else none

/-- `base64.b64decode` applied to a JSON value: a non-string raises
`TypeError`, modelled as `none`. -/
def decodeJVal : JVal → Option (List Nat)
  | .str s => b64decode s
  | .nonstr => none

/-- One `base64.b64decode(data[key])` step of the Python function: a
missing key (`KeyError`), a non-string value (`TypeError`) and an invalid
base64 string (`binascii.Error`) all escape through the function's generic
re-raise and fall under the spec's `MalformedEnvelope`. -/
def getField (fields : List (String × JVal)) (key : String) : Except DecryptError (List Nat) :=
  match lookupField fields key with
  | none => .error .malformedEnvelope
  | some jv =>
    match decodeJVal jv with
    | none => .error .malformedEnvelope
    | some bs => .ok bs

/-- The envelope-reading stage of the Python function (its step 1): read
the file, parse the JSON, and base64-decode the four fields in the order
`salt`, `nonce`, `tag`, `ciphertext`, stopping at the first failure.  No
field length is ever checked here. -/
def parseEnvelope : Source → Except DecryptError Envelope
  | .missing => .error .sourceUnavailable
  | .unreadableJson => .error .malformedEnvelope
  | .object fields =>
    match getField fields ("salt") with
    | .error e => .error e
    | .ok salt =>
      match getField fields ("nonce") with
      | .error e => .error e
      | .ok nonce =>
        match getField fields ("tag") with
        | .error e => .error e
        | .ok tag =>
          match getField fields ("ciphertext") with
          | .error e => .error e
          | .ok ciphertext => .ok ⟨salt, nonce, tag, ciphertext⟩

/-! ### The cryptographic primitives

Modelled from the spec: the PBKDF2-HMAC-SHA-256 key-derivation function
and the AES-256-GCM cipher come from the external `cryptography` library,
which is a vetted dependency outside this repository's sources.  The
structure records them as abstract deterministic functions together with
the properties the spec assumes: PBKDF2 produces exactly the requested
number of bytes and cannot fail; GCM encryption of a byte sequence is
inverted by GCM decryption under the same key and nonce; the GCM
authentication tag is exactly 16 bytes; and ciphertext and tag are byte
sequences. -/
structure CryptoPrims where
  pbkdf2HmacSha256 : List Nat → List Nat → Nat → Nat → List Nat
  enc : List Nat → List Nat → List Nat → List Nat
  dec : List Nat → List Nat → List Nat → List Nat
  mac : List Nat → List Nat → Option (List Nat) → List Nat → List Nat
  pbkdf2_length : ∀ pw salt iter len, (pbkdf2HmacSha256 pw salt iter len).length = len
  dec_enc : ∀ key nonce p, (∀ x ∈ p, x < 256) → dec key nonce (enc key nonce p) = p
  mac_length : ∀ key nonce aad ct, (mac key nonce aad ct).length = 16
  enc_bytes : ∀ key nonce p, (∀ x ∈ p, x < 256) → ∀ x ∈ enc key nonce p, x < 256
  mac_bytes : ∀ key nonce aad ct, ∀ x ∈ mac key nonce aad ct, x < 256

/-- Modelled from the spec: `AESGCM(key).decrypt(nonce, data, aad)` of the
external library.  The last 16 bytes of `data` are the authentication tag
and the rest is the ciphertext; the tag is verified against
(key, nonce, aad, ciphertext), and only on success is the decrypted
payload released.  Too-short data and any failed verification raise
`InvalidTag`, modelled as `none`; no partial plaintext escapes. -/
def gcmOpen (C : CryptoPrims) (key nonce data : List Nat) (aad : Option (List Nat)) :
    Option (List Nat) :=
  if data.length < 16 then none
  else if data.drop (data.length - 16) = C.mac key nonce aad (data.take (data.length - 16)) then
    some (C.dec key nonce (data.take (data.length - 16)))
  else none

/-- Step 2 of the Python function: derive the AES-256 key from the
password and the envelope's salt with PBKDF2-HMAC-SHA-256, 480000
iterations, 32 bytes. -/
def deriveKey (C : CryptoPrims) (password : String) (salt : List Nat) : List Nat :=
  C.pbkdf2HmacSha256 (utf8Encode password) salt 480000 32

/-- The embedding of `decrypt_json_with_password` from
`src/deployment/decryptJSON.py`: read and parse the envelope, derive the
key, call `AESGCM(key).decrypt(nonce, ciphertext + tag, None)`, and decode
the resulting plaintext bytes as UTF-8.  Each `raise` of the Python
function becomes the corresponding `DecryptError`. -/
def decrypt_json_with_password (C : CryptoPrims) (source : Source) (password : String) :
    Except DecryptError String :=
  match parseEnvelope source with
  | .error e => .error e
  | .ok env =>
    let key := deriveKey C password env.salt
    match gcmOpen C key env.nonce (env.ciphertext ++ env.tag) none with
    | none => .error .authenticationFailure
    | some pt =>
      match utf8Decode pt with
      | none => .error .unicodeDecodeError
      | some s => .ok s

/-- Modelled from the spec: the external envelope producer, which encrypts
a plaintext with the same KDF parameters (PBKDF2-HMAC-SHA-256, 480000
iterations, 32-byte key) and the same AES-GCM cipher, and emits the JSON
envelope with the four base64-encoded fields. -/
def encryptEnvelope (C : CryptoPrims) (plaintext password : String) (salt nonce : List Nat) :
    Source :=
  Source.object
    [(("salt"), .str (b64encode salt)),
     (("nonce"), .str (b64encode nonce)),
     (("tag"), .str (b64encode (C.mac (deriveKey C password salt) nonce none
        (C.enc (deriveKey C password salt) nonce (utf8Encode plaintext))))),
     (("ciphertext"), .str (b64encode
        (C.enc (deriveKey C password salt) nonce (utf8Encode plaintext))))]

/-- A concrete instantiation of the abstract primitives, used to evaluate
the theorems on concrete inputs. -/
def toyPrims : CryptoPrims where
  pbkdf2HmacSha256 := fun _ _ _ len => List.replicate len 0
  enc := fun _ _ p => p
  dec := fun _ _ c => c
  mac := fun _ _ _ _ => List.replicate 16 0
  pbkdf2_length := by intros; exact List.length_replicate _ _
  dec_enc := fun _ _ _ _ => rfl
  mac_length := by intros; exact List.length_replicate _ _
  enc_bytes := fun _ _ _ h => h
  mac_bytes := by
    intro _ _ _ _ x hx
    rw [List.eq_of_mem_replicate hx]
    omega

/-! ### Lemmas about the base64 codec -/

/-- Decoding table applied to an encoded 6-bit value recovers the value. -/
lemma b64Table_encChar : ∀ v : Nat, v < 64 → b64Table (b64EncChar v) = some v := by
  decide

/-- Alphabet characters are not the padding character. -/
lemma encChar_ne_pad : ∀ v : Nat, v < 64 → b64EncChar v ≠ '=' := by
  decide

/-- Alphabet characters are ASCII. -/
lemma encChar_ascii : ∀ v : Nat, v < 64 → (b64EncChar v).toNat < 128 := by
  decide

/-- A data character advances the decoder loop from quad position 0. -/
lemma a2bLoop_data0 (v : Nat) (hv : v < 64) (l p : Nat) (rest : List Char) (acc : List Nat) :
    a2bLoop (b64EncChar v :: rest) 0 l p acc = a2bLoop rest 1 v 0 acc := by
  simp only [a2bLoop, if_neg (encChar_ne_pad v hv), b64Table_encChar v hv]

/-- A data character advances the decoder loop from quad position 1. -/
lemma a2bLoop_data1 (v : Nat) (hv : v < 64) (l p : Nat) (rest : List Char) (acc : List Nat) :
    a2bLoop (b64EncChar v :: rest) 1 l p acc =
      a2bLoop rest 2 (v % 16) 0 (acc ++ [l * 4 + v / 16]) := by
  simp only [a2bLoop, if_neg (encChar_ne_pad v hv), b64Table_encChar v hv]

/-- A data character advances the decoder loop from quad position 2. -/
lemma a2bLoop_data2 (v : Nat) (hv : v < 64) (l p : Nat) (rest : List Char) (acc : List Nat) :
    a2bLoop (b64EncChar v :: rest) 2 l p acc =
      a2bLoop rest 3 (v % 4) 0 (acc ++ [l * 16 + v / 4]) := by
  simp only [a2bLoop, if_neg (encChar_ne_pad v hv), b64Table_encChar v hv]

/-- A data character advances the decoder loop from quad position 3. -/
lemma a2bLoop_data3 (v : Nat) (hv : v < 64) (l p : Nat) (rest : List Char) (acc : List Nat) :
    a2bLoop (b64EncChar v :: rest) 3 l p acc =
      a2bLoop rest 0 0 0 (acc ++ [l * 64 + v]) := by
  simp only [a2bLoop, if_neg (encChar_ne_pad v hv), b64Table_encChar v hv]

/-- Running the decoder loop over the base64 encoding of a byte sequence
recovers exactly those bytes, appended to the accumulator. -/
lemma a2bLoop_encode (bs : List Nat) :
    ∀ acc : List Nat, (∀ x ∈ bs, x < 256) →
      a2bLoop (b64encodeChars bs) 0 0 0 acc = some (acc ++ bs) := by
  induction bs using b64encodeChars.induct with
  | case1 a b c rest ih =>
    intro acc h
    have ha : a < 256 := h a (by simp)
    have hb : b < 256 := h b (by simp)
    have hc : c < 256 := h c (by simp)
    rw [b64encodeChars, a2bLoop_data0 _ (by omega), a2bLoop_data1 _ (by omega),
      a2bLoop_data2 _ (by omega), a2bLoop_data3 _ (by omega)]
    have e1 : a / 4 * 4 + (a % 4 * 16 + b / 16) / 16 = a := by omega
    have e2 : (a % 4 * 16 + b / 16) % 16 * 16 + (b % 16 * 4 + c / 64) / 4 = b := by omega
    have e3 : (b % 16 * 4 + c / 64) % 4 * 64 + c % 64 = c := by omega
    rw [e1, e2, e3, ih (acc ++ [a] ++ [b] ++ [c]) (fun x hx => h x (by simp [hx]))]
    simp
  | case2 a b =>
    intro acc h
    have ha : a < 256 := h a (by simp)
    have hb : b < 256 := h b (by simp)
    rw [b64encodeChars]
    rw [show ([b64EncChar (a / 4), b64EncChar (a % 4 * 16 + b / 16), b64EncChar (b % 16 * 4), '='] :
        List Char) = b64EncChar (a / 4) :: b64EncChar (a % 4 * 16 + b / 16) ::
        b64EncChar (b % 16 * 4) :: '=' :: [] from rfl]
    rw [a2bLoop_data0 _ (by omega), a2bLoop_data1 _ (by omega), a2bLoop_data2 _ (by omega)]
    have e1 : a / 4 * 4 + (a % 4 * 16 + b / 16) / 16 = a := by omega
    have e2 : (a % 4 * 16 + b / 16) % 16 * 16 + (b % 16 * 4) / 4 = b := by omega
    rw [e1, e2]
    simp [a2bLoop]
  | case3 a =>
    intro acc h
    have ha : a < 256 := h a (by simp)
    rw [b64encodeChars]
    rw [show ([b64EncChar (a / 4), b64EncChar (a % 4 * 16), '=', '='] : List Char) =
        b64EncChar (a / 4) :: b64EncChar (a % 4 * 16) :: '=' :: '=' :: [] from rfl]
    rw [a2bLoop_data0 _ (by omega), a2bLoop_data1 _ (by omega)]
    have e1 : a / 4 * 4 + (a % 4 * 16) / 16 = a := by omega
    rw [e1]
    simp [a2bLoop]
  | case4 =>
    intro acc _
    simp [b64encodeChars, a2bLoop]

/-- Every character emitted by the encoder is ASCII. -/
lemma b64encodeChars_ascii (bs : List Nat) (h : ∀ x ∈ bs, x < 256) :
    ∀ ch ∈ b64encodeChars bs, ch.toNat < 128 := by
  induction bs using b64encodeChars.induct with
  | case1 a b c rest ih =>
    have ha : a < 256 := h a (by simp)
    have hb : b < 256 := h b (by simp)
    have hc : c < 256 := h c (by simp)
    intro ch hch
    rw [b64encodeChars] at hch
    simp only [List.mem_cons] at hch
    rcases hch with h1 | h1 | h1 | h1 | h1
    · exact h1 ▸ encChar_ascii _ (by omega)
    · exact h1 ▸ encChar_ascii _ (by omega)
    · exact h1 ▸ encChar_ascii _ (by omega)
    · exact h1 ▸ encChar_ascii _ (by omega)
    · exact ih (fun x hx => h x (by simp [hx])) ch h1
  | case2 a b =>
    have ha : a < 256 := h a (by simp)
    have hb : b < 256 := h b (by simp)
    intro ch hch
    rw [b64encodeChars] at hch
    simp only [List.mem_cons] at hch
    rcases hch with h1 | h1 | h1 | h1 | h1
    · exact h1 ▸ encChar_ascii _ (by omega)
    · exact h1 ▸ encChar_ascii _ (by omega)
    · exact h1 ▸ encChar_ascii _ (by omega)
    · exact h1 ▸ (by decide)
    · simp at h1
  | case3 a =>
    have ha : a < 256 := h a (by simp)
    intro ch hch
    rw [b64encodeChars] at hch
    simp only [List.mem_cons] at hch
    rcases hch with h1 | h1 | h1 | h1 | h1
    · exact h1 ▸ encChar_ascii _ (by omega)
    · exact h1 ▸ encChar_ascii _ (by omega)
    · exact h1 ▸ (by decide)
    · exact h1 ▸ (by decide)
    · simp at h1
  | case4 =>
    intro ch hch
    simp [b64encodeChars] at hch

/-- Decoding inverts encoding on byte sequences. -/
lemma b64_roundtrip (bs : List Nat) (h : ∀ x ∈ bs, x < 256) :
    b64decode (b64encode bs) = some bs := by
  have hall : (b64encodeChars bs).all (fun c => decide (c.toNat < 128)) = true := by
    rw [List.all_eq_true]
    intro c hc
    exact decide_eq_true (b64encodeChars_ascii bs h c hc)
  show (if (b64encodeChars bs).all (fun c => decide (c.toNat < 128))
    then a2bLoop (b64encodeChars bs) 0 0 0 [] else none) = some bs
  rw [if_pos hall, a2bLoop_encode bs [] h]
  simp

/-! ### Lemmas about the UTF-8 codec -/

/-- The scalar value of a `Char` is below `0x110000` and is never a
surrogate. -/
lemma char_toNat_valid (c : Char) :
    c.toNat < 55296 ∨ (57343 < c.toNat ∧ c.toNat < 1114112) := c.valid

/-- Decoding a character's UTF-8 encoding, followed by any byte tail,
yields the character followed by the decoding of the tail. -/
lemma utf8Run_encodeChar (c : Char) (bs : List Nat) :
    utf8Run (utf8EncodeChar c ++ bs) 0 0 0 =
      (utf8Run bs 0 0 0).map (fun cs => c :: cs) := by
  have hvalid := char_toNat_valid c
  rcases Nat.lt_or_ge c.toNat 128 with h1 | h1
  · have e : utf8EncodeChar c = [c.toNat] := by
      rw [utf8EncodeChar, if_pos h1]
    rw [e, List.cons_append, List.nil_append, utf8Run, if_pos h1, Char.ofNat_toNat]
  rcases Nat.lt_or_ge c.toNat 2048 with h2 | h2
  · have e : utf8EncodeChar c = [192 + c.toNat / 64, 128 + c.toNat % 64] := by
      rw [utf8EncodeChar, if_neg (by omega), if_pos h2]
    have hb0a : ¬ (192 + c.toNat / 64 < 128) := by omega
    have hb0b : ¬ (192 + c.toNat / 64 < 194) := by omega
    have hb0c : 192 + c.toNat / 64 < 224 := by omega
    rw [e, List.cons_append, List.cons_append, List.nil_append, utf8Run,
      if_neg hb0a, if_neg hb0b, if_pos hb0c, utf8Run,
      if_pos (by omega : 128 ≤ 128 + c.toNat % 64 ∧ 128 + c.toNat % 64 < 192)]
    have ev : (192 + c.toNat / 64 - 192) * 64 + (128 + c.toNat % 64 - 128) = c.toNat := by
      omega
    rw [ev, if_pos (by omega), Char.ofNat_toNat]
  rcases Nat.lt_or_ge c.toNat 65536 with h3 | h3
  · have e : utf8EncodeChar c =
        [224 + c.toNat / 4096, 128 + c.toNat / 64 % 64, 128 + c.toNat % 64] := by
      rw [utf8EncodeChar, if_neg (by omega), if_neg (by omega), if_pos h3]
    have hb0a : ¬ (224 + c.toNat / 4096 < 128) := by omega
    have hb0b : ¬ (224 + c.toNat / 4096 < 194) := by omega
    have hb0c : ¬ (224 + c.toNat / 4096 < 224) := by omega
    have hb0d : 224 + c.toNat / 4096 < 240 := by omega
    rw [e, List.cons_append, List.cons_append, List.cons_append, List.nil_append, utf8Run,
      if_neg hb0a, if_neg hb0b, if_neg hb0c, if_pos hb0d, utf8Run,
      if_pos (by omega : 128 ≤ 128 + c.toNat / 64 % 64 ∧ 128 + c.toNat / 64 % 64 < 192),
      utf8Run,
      if_pos (by omega : 128 ≤ 128 + c.toNat % 64 ∧ 128 + c.toNat % 64 < 192)]
    have ev : ((224 + c.toNat / 4096 - 224) * 64 + (128 + c.toNat / 64 % 64 - 128)) * 64 +
        (128 + c.toNat % 64 - 128) = c.toNat := by
      omega
    rw [ev, if_pos (by omega), Char.ofNat_toNat]
  · have h4 : c.toNat < 1114112 := by omega
    have e : utf8EncodeChar c = [240 + c.toNat / 262144, 128 + c.toNat / 4096 % 64,
        128 + c.toNat / 64 % 64, 128 + c.toNat % 64] := by
      rw [utf8EncodeChar, if_neg (by omega), if_neg (by omega), if_neg (by omega)]
    have hb0a : ¬ (240 + c.toNat / 262144 < 128) := by omega
    have hb0b : ¬ (240 + c.toNat / 262144 < 194) := by omega
    have hb0c : ¬ (240 + c.toNat / 262144 < 224) := by omega
    have hb0d : ¬ (240 + c.toNat / 262144 < 240) := by omega
    have hb0e : 240 + c.toNat / 262144 < 245 := by omega
    rw [e, List.cons_append, List.cons_append, List.cons_append, List.cons_append,
      List.nil_append, utf8Run,
      if_neg hb0a, if_neg hb0b, if_neg hb0c, if_neg hb0d, if_pos hb0e, utf8Run,
      if_pos (by omega : 128 ≤ 128 + c.toNat / 4096 % 64 ∧ 128 + c.toNat / 4096 % 64 < 192),
      utf8Run,
      if_pos (by omega : 128 ≤ 128 + c.toNat / 64 % 64 ∧ 128 + c.toNat / 64 % 64 < 192),
      utf8Run,
      if_pos (by omega : 128 ≤ 128 + c.toNat % 64 ∧ 128 + c.toNat % 64 < 192)]
    have ev : (((240 + c.toNat / 262144 - 240) * 64 + (128 + c.toNat / 4096 % 64 - 128)) * 64 +
        (128 + c.toNat / 64 % 64 - 128)) * 64 + (128 + c.toNat % 64 - 128) = c.toNat := by
      omega
    rw [ev, if_pos (by omega), Char.ofNat_toNat]

/-- Decoding inverts encoding on character lists. -/
lemma utf8DecodeList_encode (cs : List Char) :
    utf8DecodeList (cs.flatMap utf8EncodeChar) = some cs := by
  induction cs with
  | nil => rfl
  | cons c rest ih =>
    rw [utf8DecodeList] at ih ⊢
    rw [List.flatMap_cons, utf8Run_encodeChar, ih]
    rfl

/-- Decoding inverts encoding on strings. -/
lemma utf8_roundtrip (s : String) : utf8Decode (utf8Encode s) = some s := by
  obtain ⟨cs⟩ := s
  rw [utf8Encode, utf8Decode, utf8DecodeList_encode]
  rfl

/-- The UTF-8 encoding of a character consists of bytes. -/
lemma utf8EncodeChar_bytes (c : Char) : ∀ x ∈ utf8EncodeChar c, x < 256 := by
  have hvalid := char_toNat_valid c
  intro x hx
  rw [utf8EncodeChar] at hx
  split_ifs at hx <;> simp only [List.mem_cons, List.not_mem_nil, or_false] at hx <;>
    rcases hx with hx | hx | hx | hx <;> omega

/-- The UTF-8 encoding of a string consists of bytes. -/
lemma utf8Encode_bytes (s : String) : ∀ x ∈ utf8Encode s, x < 256 := by
  intro x hx
  rw [utf8Encode, List.mem_flatMap] at hx
  obtain ⟨c, _, hc⟩ := hx
  exact utf8EncodeChar_bytes c x hc

/-! ### Lemmas about envelope parsing and decryption -/

/-- Looking up `salt` in the four-field envelope object. -/
lemma lookupField_salt (a b c d : JVal) :
    lookupField [(("salt"), a), (("nonce"), b), (("tag"), c), (("ciphertext"), d)]
      ("salt") = some a := rfl

/-- Looking up `nonce` in the four-field envelope object. -/
lemma lookupField_nonce (a b c d : JVal) :
    lookupField [(("salt"), a), (("nonce"), b), (("tag"), c), (("ciphertext"), d)]
      ("nonce") = some b := rfl

/-- Looking up `tag` in the four-field envelope object. -/
lemma lookupField_tag (a b c d : JVal) :
    lookupField [(("salt"), a), (("nonce"), b), (("tag"), c), (("ciphertext"), d)]
      ("tag") = some c := rfl

/-- Looking up `ciphertext` in the four-field envelope object. -/
lemma lookupField_ciphertext (a b c d : JVal) :
    lookupField [(("salt"), a), (("nonce"), b), (("tag"), c), (("ciphertext"), d)]
      ("ciphertext") = some d := rfl

/-- A failing field extraction always signals `malformedEnvelope`. -/
lemma getField_error (fields : List (String × JVal)) (key : String) (e : DecryptError)
    (h : getField fields key = .error e) : e = .malformedEnvelope := by
  rw [getField] at h
  rcases hl : lookupField fields key with _ | jv
  · rw [hl] at h
    injection h with h
    exact h.symm
  · rw [hl] at h
    simp only [] at h
    rcases hd : decodeJVal jv with _ | bs
    · rw [hd] at h
      injection h with h
      exact h.symm
    · rw [hd] at h
      injection h

/-- On a present, decodable field, extraction returns the decoded bytes. -/
lemma getField_ok (fields : List (String × JVal)) (key : String) (jv : JVal)
    (bs : List Nat) (hl : lookupField fields key = some jv) (hd : decodeJVal jv = some bs) :
    getField fields key = .ok bs := by
  rw [getField, hl]
  simp only []
  rw [hd]

/-- Successful extraction of the four fields makes parsing succeed, with
no condition whatsoever on the lengths of the decoded buffers. -/
lemma parseObject_ok (fields : List (String × JVal)) (s n t ct : List Nat)
    (hs : getField fields ("salt") = .ok s) (hn : getField fields ("nonce") = .ok n)
    (ht : getField fields ("tag") = .ok t) (hc : getField fields ("ciphertext") = .ok ct) :
    parseEnvelope (.object fields) = .ok ⟨s, n, t, ct⟩ := by
  rw [parseEnvelope, hs, hn, ht, hc]

/-- Parsing a JSON object either succeeds or fails with
`malformedEnvelope`. -/
lemma parseObject_cases (fields : List (String × JVal)) :
    (∃ env, parseEnvelope (.object fields) = .ok env) ∨
      parseEnvelope (.object fields) = .error .malformedEnvelope := by
  rw [parseEnvelope]
  rcases h1 : getField fields ("salt") with e1 | s1
  · right
    rw [getField_error _ _ _ h1]
  rcases h2 : getField fields ("nonce") with e2 | s2
  · right
    rw [getField_error _ _ _ h2]
  rcases h3 : getField fields ("tag") with e3 | s3
  · right
    rw [getField_error _ _ _ h3]
  rcases h4 : getField fields ("ciphertext") with e4 | s4
  · right
    rw [getField_error _ _ _ h4]
  · exact Or.inl ⟨⟨s1, s2, s3, s4⟩, rfl⟩

/-- Every parse failure is `sourceUnavailable` or `malformedEnvelope`. -/
lemma parse_error_kinds (src : Source) (e : DecryptError)
    (h : parseEnvelope src = .error e) :
    e = .sourceUnavailable ∨ e = .malformedEnvelope := by
  cases src with
  | missing =>
    rw [parseEnvelope] at h
    injection h with h
    exact Or.inl h.symm
  | unreadableJson =>
    rw [parseEnvelope] at h
    injection h with h
    exact Or.inr h.symm
  | object fields =>
    rcases parseObject_cases fields with ⟨env, henv⟩ | hm
    · rw [henv] at h
      cases h
    · rw [hm] at h
      injection h with h
      exact Or.inr h.symm

/-- Unfolding of `decrypt_json_with_password` after a successful parse. -/
lemma decrypt_eq_of_parse (C : CryptoPrims) (src : Source) (pw : String)
    (salt nonce tg ct : List Nat) (h : parseEnvelope src = .ok ⟨salt, nonce, tg, ct⟩) :
    decrypt_json_with_password C src pw =
      match gcmOpen C (deriveKey C pw salt) nonce (ct ++ tg) none with
      | none => .error .authenticationFailure
      | some pt =>
        match utf8Decode pt with
        | none => .error .unicodeDecodeError
        | some s => .ok s := by
  rw [decrypt_json_with_password, h]

/-- Opening ciphertext concatenated with its own tag succeeds and returns
the decryption of the ciphertext. -/
lemma gcmOpen_append_mac (C : CryptoPrims) (key nonce ct : List Nat)
    (aad : Option (List Nat)) :
    gcmOpen C key nonce (ct ++ C.mac key nonce aad ct) aad = some (C.dec key nonce ct) := by
  have h16 := C.mac_length key nonce aad ct
  have hlen : (ct ++ C.mac key nonce aad ct).length = ct.length + 16 := by
    rw [List.length_append, h16]
  have hd : (ct ++ C.mac key nonce aad ct).length - 16 = ct.length := by
    rw [hlen]
    omega
  rw [gcmOpen, if_neg (by omega), hd, List.take_left, List.drop_left, if_pos rfl]

/-- Parsing the envelope emitted for four byte buffers recovers exactly
those buffers. -/
lemma parse_encoded (salt nonce tg ct : List Nat)
    (hsalt : ∀ x ∈ salt, x < 256) (hnonce : ∀ x ∈ nonce, x < 256)
    (htg : ∀ x ∈ tg, x < 256) (hct : ∀ x ∈ ct, x < 256) :
    parseEnvelope (.object
      [(("salt"), .str (b64encode salt)), (("nonce"), .str (b64encode nonce)),
       (("tag"), .str (b64encode tg)), (("ciphertext"), .str (b64encode ct))]) =
      .ok ⟨salt, nonce, tg, ct⟩ := by
  refine parseObject_ok _ _ _ _ _ ?_ ?_ ?_ ?_
  · exact getField_ok _ _ _ _ (lookupField_salt _ _ _ _)
      (by rw [decodeJVal, b64_roundtrip salt hsalt])
  · exact getField_ok _ _ _ _ (lookupField_nonce _ _ _ _)
      (by rw [decodeJVal, b64_roundtrip nonce hnonce])
  · exact getField_ok _ _ _ _ (lookupField_tag _ _ _ _)
      (by rw [decodeJVal, b64_roundtrip tg htg])
  · exact getField_ok _ _ _ _ (lookupField_ciphertext _ _ _ _)
      (by rw [decodeJVal, b64_roundtrip ct hct])

/-- Decrypting an envelope produced by the conforming encryption
collaborator with the same password recovers the plaintext. -/
lemma decrypt_encrypt (C : CryptoPrims) (P W : String) (salt nonce : List Nat)
    (hsalt : ∀ x ∈ salt, x < 256) (hnonce : ∀ x ∈ nonce, x < 256) :
    decrypt_json_with_password C (encryptEnvelope C P W salt nonce) W = .ok P := by
  have hpt := utf8Encode_bytes P
  have hct : ∀ x ∈ C.enc (deriveKey C W salt) nonce (utf8Encode P), x < 256 :=
    C.enc_bytes _ _ _ hpt
  have htg := C.mac_bytes (deriveKey C W salt) nonce none
    (C.enc (deriveKey C W salt) nonce (utf8Encode P))
  rw [encryptEnvelope, decrypt_eq_of_parse C _ W _ _ _ _
    (parse_encoded _ _ _ _ hsalt hnonce htg hct)]
  rw [gcmOpen_append_mac, C.dec_enc _ _ _ hpt]
  simp only []
  rw [utf8_roundtrip P]

/-! ### Concrete envelopes used to evaluate the theorems -/

/-- A well-formed envelope whose ciphertext is the UTF-8 bytes of
`hello`, with the tag that `toyPrims` accepts. -/
def helloEnvelope : Source := .object
  [(("salt"), .str ("AA==")), (("nonce"), .str ("AA==")),
   (("tag"), .str ("AAAAAAAAAAAAAAAAAAAAAA==")), (("ciphertext"), .str ("aGVsbG8="))]

/-- An envelope whose single ciphertext byte `0xFF` authenticates under
`toyPrims` but is not valid UTF-8. -/
def badUtf8Envelope : Source := .object
  [(("salt"), .str ("AA==")), (("nonce"), .str ("AA==")),
   (("tag"), .str ("AAAAAAAAAAAAAAAAAAAAAA==")), (("ciphertext"), .str ("/w=="))]

/-- An envelope whose single ciphertext byte `0x80` authenticates under
`toyPrims` but is not valid UTF-8. -/
def nonUtf8Envelope : Source := .object
  [(("salt"), .str ("AA==")), (("nonce"), .str ("AA==")),
   (("tag"), .str ("AAAAAAAAAAAAAAAAAAAAAA==")), (("ciphertext"), .str ("gA=="))]

/-- `badUtf8Envelope` with the last tag byte changed from 0 to 1, so that
tag verification under `toyPrims` fails. -/
def tamperedEnvelope : Source := .object
  [(("salt"), .str ("AA==")), (("nonce"), .str ("AA==")),
   (("tag"), .str ("AAAAAAAAAAAAAAAAAAAAAQ==")), (("ciphertext"), .str ("/w=="))]

/-- Envelope fields of unconventional byte lengths: 1-byte salt, 1-byte
nonce, 2-byte tag, 1-byte ciphertext. -/
def oddFields : List (String × JVal) :=
  [(("salt"), .str ("AA==")), (("nonce"), .str ("AA==")),
   (("tag"), .str ("AAA=")), (("ciphertext"), .str ("AA=="))]

/-- Envelope fields with no `tag` key at all. -/
def missingTagFields : List (String × JVal) :=
  [(("salt"), .str ("AA==")), (("nonce"), .str ("AA==")),
   (("ciphertext"), .str ("AA=="))]

/-- A field is absent from the parsed JSON object, or its value is not
decodable as base64 (including the non-string case). -/
def badField (fields : List (String × JVal)) (key : String) : Prop :=
  lookupField fields key = none ∨
    ∃ jv, lookupField fields key = some jv ∧ decodeJVal jv = none

/-- A bad field makes its extraction fail with `malformedEnvelope`. -/
lemma getField_of_badField (fields : List (String × JVal)) (key : String)
    (h : badField fields key) : getField fields key = .error .malformedEnvelope := by
  rcases h with h | ⟨jv, hl, hd⟩
  · rw [getField, h]
  · rw [getField, hl]
    simp only []
    rw [hd]

/-- A successful parse means all four field extractions succeeded. -/
lemma parseObject_ok_fields (fields : List (String × JVal)) (env : Envelope)
    (h : parseEnvelope (.object fields) = .ok env) :
    getField fields ("salt") = .ok env.salt ∧ getField fields ("nonce") = .ok env.nonce ∧
    getField fields ("tag") = .ok env.tag ∧
    getField fields ("ciphertext") = .ok env.ciphertext := by
  rw [parseEnvelope] at h
  rcases h1 : getField fields ("salt") with e1 | s1 <;> rw [h1] at h
  · injection h
  simp only [] at h
  rcases h2 : getField fields ("nonce") with e2 | s2 <;> rw [h2] at h
  · injection h
  simp only [] at h
  rcases h3 : getField fields ("tag") with e3 | s3 <;> rw [h3] at h
  · injection h
  simp only [] at h
  rcases h4 : getField fields ("ciphertext") with e4 | s4 <;> rw [h4] at h
  · injection h
  simp only [] at h
  injection h with h
  subst h
  exact ⟨rfl, rfl, rfl, rfl⟩

/-! ### The claims -/

/-- Claim C1: for every key, nonce, ciphertext and tag, the Authenticated
Decryptor returns plaintext only if the authentication tag verifies
against (key, nonce, ciphertext); whenever verification fails for any
reason, the operation fails with the single uniform
`authenticationFailure` signal and releases no partial plaintext. -/
theorem decrypt_plaintext_only_if_tag_verifies (C : CryptoPrims) (src : Source)
    (password : String) (salt nonce tg ct : List Nat)
    (hparse : parseEnvelope src = .ok ⟨salt, nonce, tg, ct⟩) :
    (∀ p, decrypt_json_with_password C src password = .ok p →
      gcmOpen C (deriveKey C password salt) nonce (ct ++ tg) none ≠ none)
    ∧ (gcmOpen C (deriveKey C password salt) nonce (ct ++ tg) none = none →
      decrypt_json_with_password C src password = .error .authenticationFailure) := by
  rw [decrypt_eq_of_parse C src password salt nonce tg ct hparse]
  constructor
  · intro p hp hnone
    rw [hnone] at hp
    injection hp
  · intro hnone
    rw [hnone]

/-- Witness for Claim C1: on a concrete envelope with a tampered tag,
verification fails and decryption fails with `authenticationFailure`. -/
theorem decrypt_plaintext_only_if_tag_verifies_witness :
    decrypt_json_with_password toyPrims tamperedEnvelope ("pw") =
      .error .authenticationFailure :=
  (decrypt_plaintext_only_if_tag_verifies toyPrims tamperedEnvelope ("pw")
    [0] [0] (List.replicate 15 0 ++ [1]) [255] rfl).2 rfl

/-- Claim C2: the key used for decryption is PBKDF2-HMAC-SHA-256 of the
UTF-8 encoded password and the envelope's salt, with exactly 480000
iterations, producing exactly 32 bytes; derivation is a total
deterministic function. -/
theorem deriveKey_is_pbkdf2_sha256_480000_32 (C : CryptoPrims) (password : String)
    (salt : List Nat) :
    deriveKey C password salt = C.pbkdf2HmacSha256 (utf8Encode password) salt 480000 32
    ∧ (deriveKey C password salt).length = 32 :=
  ⟨rfl, C.pbkdf2_length (utf8Encode password) salt 480000 32⟩

/-- Claim C3: after a successful parse, decryption is exactly the result
of invoking the AES-GCM AEAD with the derived key and the envelope's
nonce over the concatenation of ciphertext followed by tag, with the
associated authenticated data fixed to `none`. -/
theorem decrypt_invokes_aesgcm_on_ct_append_tag_no_aad (C : CryptoPrims) (src : Source)
    (password : String) (salt nonce tg ct : List Nat)
    (hparse : parseEnvelope src = .ok ⟨salt, nonce, tg, ct⟩) :
    decrypt_json_with_password C src password =
      match gcmOpen C (deriveKey C password salt) nonce (ct ++ tg) none with
      | none => .error .authenticationFailure
      | some pt =>
        match utf8Decode pt with
        | none => .error .unicodeDecodeError
        | some s => .ok s :=
  decrypt_eq_of_parse C src password salt nonce tg ct hparse

/-- Witness for Claim C3 on a concrete well-formed envelope. -/
theorem decrypt_invokes_aesgcm_witness :
    decrypt_json_with_password toyPrims helloEnvelope ("pw") =
      match gcmOpen toyPrims (deriveKey toyPrims ("pw") [0]) [0]
        ([104, 101, 108, 108, 111] ++ List.replicate 16 0) none with
      | none => .error .authenticationFailure
      | some pt =>
        match utf8Decode pt with
        | none => .error .unicodeDecodeError
        | some s => .ok s :=
  decrypt_invokes_aesgcm_on_ct_append_tag_no_aad toyPrims helloEnvelope ("pw")
    [0] [0] (List.replicate 16 0) [104, 101, 108, 108, 111] rfl

/-- Claim C4 as stated is false: on this concrete envelope the tag
verifies but the plaintext bytes are not valid UTF-8, and the function
fails with a `UnicodeDecodeError`, a fourth failure kind distinct from
`sourceUnavailable`, `malformedEnvelope` and `authenticationFailure`. -/
theorem decrypt_error_taxonomy_counterexample :
    decrypt_json_with_password toyPrims badUtf8Envelope ("pw") =
      .error .unicodeDecodeError
    ∧ DecryptError.unicodeDecodeError ≠ .sourceUnavailable
    ∧ DecryptError.unicodeDecodeError ≠ .malformedEnvelope
    ∧ DecryptError.unicodeDecodeError ≠ .authenticationFailure :=
  ⟨rfl, by decide, by decide, by decide⟩

/-- Claim C4 (amended): decrypt either returns plaintext or fails with
`sourceUnavailable`, `malformedEnvelope`, `authenticationFailure`, or —
exactly when tag verification succeeded but the recovered plaintext bytes
are not valid UTF-8 — a `UnicodeDecodeError`; no failure is silently
swallowed and no further kind can escape. -/
theorem decrypt_error_taxonomy (C : CryptoPrims) (src : Source) (password : String) :
    (∃ p, decrypt_json_with_password C src password = .ok p)
    ∨ decrypt_json_with_password C src password = .error .sourceUnavailable
    ∨ decrypt_json_with_password C src password = .error .malformedEnvelope
    ∨ decrypt_json_with_password C src password = .error .authenticationFailure
    ∨ (decrypt_json_with_password C src password = .error .unicodeDecodeError
       ∧ ∃ salt nonce tg ct pt, parseEnvelope src = .ok ⟨salt, nonce, tg, ct⟩
         ∧ gcmOpen C (deriveKey C password salt) nonce (ct ++ tg) none = some pt
         ∧ utf8Decode pt = none) := by
  rcases hp : parseEnvelope src with e | env
  · rcases parse_error_kinds src e hp with h | h <;> subst h
    · right
      left
      rw [decrypt_json_with_password, hp]
    · right
      right
      left
      rw [decrypt_json_with_password, hp]
  · obtain ⟨salt, nonce, tg, ct⟩ := env
    rw [decrypt_eq_of_parse C src password salt nonce tg ct hp]
    rcases hg : gcmOpen C (deriveKey C password salt) nonce (ct ++ tg) none with _ | pt
    · right
      right
      right
      left
      rfl
    · simp only []
      rcases hu : utf8Decode pt with _ | s

      · right
        right
        right
        right
        exact ⟨rfl, salt, nonce, tg, ct, pt, rfl, hg, hu⟩
      · exact Or.inl ⟨s, rfl⟩

/-- Claim C5: round-trip — decrypting an envelope built by the conforming
external encryption collaborator from plaintext `P` with password `W`
returns exactly `P`. -/
theorem decrypt_roundtrip (C : CryptoPrims) (P W : String) (salt nonce : List Nat)
    (hsalt : ∀ x ∈ salt, x < 256) (hnonce : ∀ x ∈ nonce, x < 256) :
    decrypt_json_with_password C (encryptEnvelope C P W salt nonce) W = .ok P :=
  decrypt_encrypt C P W salt nonce hsalt hnonce

/-- Witness for Claim C5 on the spec's concrete scenario: plaintext
`hello`, password `pw1234`, 16-byte zero salt, 12-byte zero nonce. -/
theorem decrypt_roundtrip_witness :
    decrypt_json_with_password toyPrims
      (encryptEnvelope toyPrims ("hello") ("pw1234") (List.replicate 16 0)
        (List.replicate 12 0)) ("pw1234") = .ok ("hello") :=
  decrypt_roundtrip toyPrims ("hello") ("pw1234") (List.replicate 16 0)
    (List.replicate 12 0) (by decide) (by decide)

/-- Claim C6: an envelope whose four fields are present and
base64-decodable is never rejected for the lengths of the decoded
buffers; parsing succeeds whatever those lengths are, and any subsequent
verification failure — in particular the one forced by too-short
ciphertext-plus-tag data — surfaces as `authenticationFailure`, not
through any other error path. -/
theorem parse_accepts_any_lengths (C : CryptoPrims) (fields : List (String × JVal))
    (s n t ct : List Nat) (password : String)
    (hs : getField fields ("salt") = .ok s) (hn : getField fields ("nonce") = .ok n)
    (ht : getField fields ("tag") = .ok t) (hc : getField fields ("ciphertext") = .ok ct) :
    parseEnvelope (.object fields) = .ok ⟨s, n, t, ct⟩
    ∧ (gcmOpen C (deriveKey C password s) n (ct ++ t) none = none →
        decrypt_json_with_password C (.object fields) password =
          .error .authenticationFailure)
    ∧ ((ct ++ t).length < 16 →
        decrypt_json_with_password C (.object fields) password =
          .error .authenticationFailure) := by
  have hparse := parseObject_ok fields s n t ct hs hn ht hc
  refine ⟨hparse, ?_, ?_⟩
  · intro hg
    rw [decrypt_eq_of_parse C _ password s n t ct hparse, hg]
  · intro hlen
    rw [decrypt_eq_of_parse C _ password s n t ct hparse,
      show gcmOpen C (deriveKey C password s) n (ct ++ t) none = none from by
        rw [gcmOpen, if_pos hlen]]

/-- Witness for Claim C6 on a concrete envelope with a 1-byte salt,
1-byte nonce, 2-byte tag and 1-byte ciphertext. -/
theorem parse_accepts_any_lengths_witness :
    parseEnvelope (.object oddFields) = .ok ⟨[0], [0], [0, 0], [0]⟩
    ∧ decrypt_json_with_password toyPrims (.object oddFields) ("pw") =
        .error .authenticationFailure :=
  ⟨(parse_accepts_any_lengths toyPrims oddFields [0] [0] [0, 0] [0] ("pw")
      rfl rfl rfl rfl).1,
   (parse_accepts_any_lengths toyPrims oddFields [0] [0] [0, 0] [0] ("pw")
      rfl rfl rfl rfl).2.2 (by decide)⟩

/-- Claim C7: if any of the four keys `salt`, `nonce`, `tag`,
`ciphertext` is missing or its value is not decodable as base64, the
whole decryption fails with `malformedEnvelope`, and the key-derivation
and decryption stages are never reached: the result does not depend on
the password or on the cryptographic primitives at all. -/
theorem missing_or_bad_field_is_malformed (C Cp : CryptoPrims)
    (fields : List (String × JVal)) (pw pwq : String)
    (h : badField fields ("salt") ∨ badField fields ("nonce") ∨
      badField fields ("tag") ∨ badField fields ("ciphertext")) :
    decrypt_json_with_password C (.object fields) pw = .error .malformedEnvelope
    ∧ decrypt_json_with_password C (.object fields) pw =
        decrypt_json_with_password Cp (.object fields) pwq := by
  have hm : parseEnvelope (.object fields) = .error .malformedEnvelope := by
    rcases parseObject_cases fields with ⟨env, henv⟩ | hbad
    · exfalso
      have hall := parseObject_ok_fields fields env henv
      rcases h with h | h | h | h
      · have h1 := hall.1
        rw [getField_of_badField _ _ h] at h1
        injection h1
      · have h1 := hall.2.1
        rw [getField_of_badField _ _ h] at h1
        injection h1
      · have h1 := hall.2.2.1
        rw [getField_of_badField _ _ h] at h1
        injection h1
      · have h1 := hall.2.2.2
        rw [getField_of_badField _ _ h] at h1
        injection h1
    · exact hbad
  constructor
  · rw [decrypt_json_with_password, hm]
  · simp only [decrypt_json_with_password, hm]

/-- Witness for Claim C7 on a concrete envelope with the `tag` field
absent. -/
theorem missing_or_bad_field_is_malformed_witness :
    decrypt_json_with_password toyPrims (.object missingTagFields) ("a") =
      .error .malformedEnvelope :=
  (missing_or_bad_field_is_malformed toyPrims toyPrims missingTagFields ("a") ("b")
    (Or.inr (Or.inr (Or.inl (Or.inl rfl))))).1

/-- Claim C8: two decrypt calls with identical envelope contents and
identical password produce the identical result — same plaintext on
success, same error kind on failure. -/
theorem decrypt_deterministic (C : CryptoPrims) (src1 src2 : Source) (pw1 pw2 : String)
    (hsrc : src1 = src2) (hpw : pw1 = pw2) :
    decrypt_json_with_password C src1 pw1 = decrypt_json_with_password C src2 pw2 := by
  rw [hsrc, hpw]

/-- Witness for Claim C8 on a concrete envelope. -/
theorem decrypt_deterministic_witness :
    decrypt_json_with_password toyPrims helloEnvelope ("pw") =
      decrypt_json_with_password toyPrims helloEnvelope ("pw") :=
  decrypt_deterministic toyPrims helloEnvelope helloEnvelope ("pw") ("pw") rfl rfl

/-- Claim C9: an envelope encrypting a zero-length plaintext decrypts
successfully to the zero-length string, with no special-case failure. -/
theorem decrypt_empty_plaintext (C : CryptoPrims) (W : String) (salt nonce : List Nat)
    (hsalt : ∀ x ∈ salt, x < 256) (hnonce : ∀ x ∈ nonce, x < 256) :
    decrypt_json_with_password C (encryptEnvelope C ("") W salt nonce) W = .ok ("")
    ∧ String.length ("") = 0 :=
  ⟨decrypt_encrypt C ("") W salt nonce hsalt hnonce, rfl⟩

/-- Witness for Claim C9 with password `pw1234`, 16-byte salt and
12-byte nonce. -/
theorem decrypt_empty_plaintext_witness :
    decrypt_json_with_password toyPrims
      (encryptEnvelope toyPrims ("") ("pw1234") (List.replicate 16 0)
        (List.replicate 12 0)) ("pw1234") = .ok ("") :=
  (decrypt_empty_plaintext toyPrims ("pw1234") (List.replicate 16 0)
    (List.replicate 12 0) (by decide) (by decide)).1

/-- Claim C10: decrypt only returns plaintext that arose from decoding
the authenticated plaintext bytes as UTF-8, and whenever tag verification
succeeds but the recovered bytes are not valid UTF-8 it fails with a
decoding error that is none of `sourceUnavailable`, `malformedEnvelope`
and `authenticationFailure`. -/
theorem decrypt_utf8_decoding (C : CryptoPrims) (src : Source) (password : String) :
    (∀ s, decrypt_json_with_password C src password = .ok s →
      ∃ salt nonce tg ct pt, parseEnvelope src = .ok ⟨salt, nonce, tg, ct⟩
        ∧ gcmOpen C (deriveKey C password salt) nonce (ct ++ tg) none = some pt
        ∧ utf8Decode pt = some s)
    ∧ (∀ salt nonce tg ct pt, parseEnvelope src = .ok ⟨salt, nonce, tg, ct⟩ →
        gcmOpen C (deriveKey C password salt) nonce (ct ++ tg) none = some pt →
        utf8Decode pt = none →
        decrypt_json_with_password C src password = .error .unicodeDecodeError
        ∧ DecryptError.unicodeDecodeError ≠ .sourceUnavailable
        ∧ DecryptError.unicodeDecodeError ≠ .malformedEnvelope
        ∧ DecryptError.unicodeDecodeError ≠ .authenticationFailure) := by
  constructor
  · intro s hs
    rcases hp : parseEnvelope src with e | env
    · rw [decrypt_json_with_password, hp] at hs
      injection hs
    · obtain ⟨salt, nonce, tg, ct⟩ := env
      rw [decrypt_eq_of_parse C src password salt nonce tg ct hp] at hs
      rcases hg : gcmOpen C (deriveKey C password salt) nonce (ct ++ tg) none with _ | pt
      · rw [hg] at hs
        injection hs
      · rw [hg] at hs
        simp only [] at hs
        rcases hu : utf8Decode pt with _ | sq
        · rw [hu] at hs
          injection hs
        · rw [hu] at hs
          injection hs with hs
          exact ⟨salt, nonce, tg, ct, pt, rfl, hg, hs ▸ hu⟩
  · intro salt nonce tg ct pt hp hg hu
    refine ⟨?_, by decide, by decide, by decide⟩
    rw [decrypt_eq_of_parse C src password salt nonce tg ct hp, hg]
    simp only []
    rw [hu]

/-- Witness for Claim C10 on a concrete envelope whose authenticated
plaintext byte `0x80` is not valid UTF-8. -/
theorem decrypt_utf8_decoding_witness :
    decrypt_json_with_password toyPrims nonUtf8Envelope ("pw") =
      .error .unicodeDecodeError :=
  ((decrypt_utf8_decoding toyPrims nonUtf8Envelope ("pw")).2 [0] [0]
    (List.replicate 16 0) [128] [128] rfl rfl rfl).1

end DecryptJSON
